import Mathlib

/-!
Shallow embedding of `rexpro/connectors/base.py` (rexpro-python).

The embedding models the connection-pool / connection-lifecycle /
retry-blacklist / transaction state machine of `RexProBaseConnectionPool`
and `RexProBaseConnection`.  External collaborators (socket backend and
message codec) are modelled as an oracle: a list of `Ev` events that is
consumed left to right, one event per external interaction (connect
attempt, request/response round trip, readiness poll).  Python values
that may be scalars or candidate lists (`host`, `port`) are modelled by
`PyVal`; `len()` is partial on them exactly as in Python (`pyLen`).
Requests put on the wire are recorded in the `sent` field of the state,
so that theorems can speak about what was sent to the server.
-/

namespace Rexpro

/-- A scalar Python value usable as a host or port candidate. -/
inductive PyScalar
| int (n : Int)
| str (s : String)
deriving DecidableEq, Repr

/-- A Python value as configured for `host` / `port`: a scalar or a list of
candidates.  `isinstance(x, list)` corresponds to the `list` constructor. -/
inductive PyVal
| int (n : Int)
| str (s : String)
| list (xs : List PyScalar)
deriving DecidableEq, Repr

/-- Python `len()`: defined on strings and lists, raises `TypeError` on ints
(modelled as `none`). -/
def pyLen : PyVal → Option Nat
| .int _ => none
| .str s => some s.length
| .list xs => some xs.length

/-- Oracle events: one per interaction with the socket backend / server.
`pick i` resolves a `random.choice` draw, `connectOk`/`connectFail` resolve a
socket connect, `poll r w` resolves a readiness select, and the remaining
events resolve a request/response round trip (`ioFail` = socket-level
failure, `errResp` = server `ErrorResponse`, `sessionOk`/`scriptOk`/`ack` =
well-formed success responses). -/
inductive Ev
| pick (i : Nat)
| connectOk
| connectFail
| poll (r w : Bool)
| ioFail
| errResp
| ack
| sessionOk (k : Nat)
| scriptOk (rs : List Int)
deriving DecidableEq, Repr

/-- A request put on the wire (instrumentation of `send_message`). -/
inductive Req
| sessionOpen
| sessionKill
| scriptReq (script : String) (isolate : Bool) (in_transaction : Bool)
deriving DecidableEq, Repr

/-- Exceptions.  `scriptException msg` is `RexProScriptException(msg)` raised
directly in `base.py`; `connectionException` is `RexProConnectionException`;
`respErr` stands for whatever `ErrorResponse.raise_exception()` raises;
`sockErr` for socket-level errors; `typeError` / `indexError` for the Python
builtins; `userError` models an arbitrary exception raised by caller code
inside a `transaction()` scope. -/
inductive RexErr
| sockErr
| respErr
| badResp
| typeError
| indexError
| scriptException (msg : String)
| connectionException (msg : String)
| userError (n : Nat)
deriving DecidableEq, Repr

/-- The retry budget shared by `open()` and `execute()`. -/
def CONNECTION_ATTEMPTS : Nat := 3

/-- The mutable state of a `RexProBaseConnection`.
`conn = none` models `self._conn is None`; `conn = some b` a socket object
whose TCP connection is established iff `b`.  (`close()` in the source never
touches the socket object, so a hard-closed connection keeps its socket.)
`sent` is the wire log (instrumentation, not a Python attribute). -/
structure St where
  host : PyVal
  port : PyVal
  conn : Option Bool
  session_key : Option Nat
  opened : Bool
  in_transaction : Bool
  current_host : Option PyScalar
  current_port : Option PyScalar
  host_blacklist : List (Option PyScalar)
  port_blacklist : List (Option PyScalar)
  sent : List Req
deriving DecidableEq, Repr

/-- Result of running an operation: final state, remaining oracle, outcome. -/
structure Out (α : Type) where
  st : St
  evs : List Ev
  res : Except RexErr α
deriving Repr

instance {ε α : Type} [DecidableEq ε] [DecidableEq α] : DecidableEq (Except ε α) :=
  fun a b =>
    match a, b with
    | .ok x, .ok y =>
      if h : x = y then .isTrue (by rw [h]) else .isFalse (by intro hc; cases hc; exact h rfl)
    | .error x, .error y =>
      if h : x = y then .isTrue (by rw [h]) else .isFalse (by intro hc; cases hc; exact h rfl)
    | .ok _, .error _ => .isFalse (by intro hc; cases hc)
    | .error _, .ok _ => .isFalse (by intro hc; cases hc)

/-- Python `set.add`: insert preserving set semantics (no duplicates). -/
def sadd (x : Option PyScalar) (l : List (Option PyScalar)) : List (Option PyScalar) :=
  if x ∈ l then l else x :: l

/-- Resolve a `random.choice` draw from the oracle: a `pick i` event supplies
the index, any other prefix behaves as index 0 (the theorems quantify over
oracles, so this loses no behaviour). -/
def pickIdx : List Ev → Nat × List Ev
| .pick i :: o => (i, o)
| o => (0, o)

/-- Resolve a socket `connect` attempt from the oracle. -/
def connectEv : List Ev → List Ev × Bool
| .connectOk :: o => (o, true)
| _ :: o => (o, false)
| [] => ([], false)

/-- Resolve a `select` readiness poll from the oracle. -/
def pollEv : List Ev → List Ev × Bool × Bool
| .poll r w :: o => (o, r, w)
| _ :: o => (o, false, false)
| [] => ([], false, false)

/-- Is the socket usable for I/O? -/
def connected (s : St) : Bool := s.conn = some true

/-- Round trip for a `SessionRequest` opening a session: yields the
`session_key` of the response.  On an unconnected socket the send itself
raises (no oracle event is consumed).  A response of the wrong shape raises
when `.session_key` is accessed, modelled as `badResp`. -/
def sessRT (s : St) (o : List Ev) : List Ev × Except RexErr Nat :=
  if connected s then
    match o with
    | [] => ([], .error .sockErr)
    | .ioFail :: o' => (o', .error .sockErr)
    | .errResp :: o' => (o', .error .respErr)
    | .sessionOk k :: o' => (o', .ok k)
    | _ :: o' => (o', .error .badResp)
  else (o, .error .sockErr)

/-- Round trip for a `ScriptRequest`: yields the decoded result list. -/
def scriptRT (s : St) (o : List Ev) : List Ev × Except RexErr (List Int) :=
  if connected s then
    match o with
    | [] => ([], .error .sockErr)
    | .ioFail :: o' => (o', .error .sockErr)
    | .errResp :: o' => (o', .error .respErr)
    | .scriptOk rs :: o' => (o', .ok rs)
    | _ :: o' => (o', .error .badResp)
  else (o, .error .sockErr)

/-- Outcome of the kill-session round trip in `close()`: the source only
checks `isinstance(response, ErrorResponse)`, so any non-error response is a
success. -/
inductive KillRes
| sockFail
| errorResp
| okResp
deriving DecidableEq, Repr

/-- Round trip for the kill-session request of `close()`. -/
def killRT (s : St) (o : List Ev) : List Ev × KillRes :=
  if connected s then
    match o with
    | [] => ([], .sockFail)
    | .ioFail :: o' => (o', .sockFail)
    | .errResp :: o' => (o', .errorResp)
    | _ :: o' => (o', .okResp)
  else (o, .sockFail)

/-- `RexProBaseConnection.connection_failed` (base.py:293-304).  Adds the
current endpoint to both blacklists, then resets each blacklist whose size
reached `len()` of the corresponding *configured value* — raising `TypeError`
when that value is an int.  Mutations made before the raise persist, so the
state is returned alongside the optional exception. -/
def connection_failed (s : St) : St × Option RexErr :=
  let hb1 := sadd s.current_host s.host_blacklist
  let pb1 := sadd s.current_port s.port_blacklist
  match pyLen s.host with
  | none => ({ s with host_blacklist := hb1, port_blacklist := pb1 }, some .typeError)
  | some hl =>
    let hb2 := if hl ≤ hb1.length then [] else hb1
    match pyLen s.port with
    | none => ({ s with host_blacklist := hb2, port_blacklist := pb1 }, some .typeError)
    | some pl =>
      let pb2 := if pl ≤ pb1.length then [] else pb1
      ({ s with host_blacklist := hb2, port_blacklist := pb2 }, none)

/-- `set(self.host) - self.host_blacklist` when host is a candidate list. -/
def hostChoices (s : St) : List PyScalar :=
  match s.host with
  | .list xs => xs.dedup.filter (fun h => decide (some h ∉ s.host_blacklist))
  | _ => []

/-- `set(self.port) - self.port_blacklist` when port is a candidate list. -/
def portChoices (s : St) : List PyScalar :=
  match s.port with
  | .list xs => xs.dedup.filter (fun h => decide (some h ∉ s.port_blacklist))
  | _ => []

/-- Endpoint resolution for the host in `open()` (base.py:319-323):
`random.choice(list(set(host) - blacklist))` when host is a list (raising
`IndexError` on an empty choice set), the scalar itself otherwise. -/
def drawHost (s : St) (o : List Ev) : Except RexErr (PyScalar × List Ev) :=
  match s.host with
  | .int n => .ok (.int n, o)
  | .str t => .ok (.str t, o)
  | .list _ =>
    let cs := hostChoices s
    if cs.isEmpty then .error .indexError
    else
      let (i, o') := pickIdx o
      .ok (cs.getD (i % cs.length) (.str ""), o')

/-- Endpoint resolution for the port in `open()` (base.py:325-329). -/
def drawPort (s : St) (o : List Ev) : Except RexErr (PyScalar × List Ev) :=
  match s.port with
  | .int n => .ok (.int n, o)
  | .str t => .ok (.str t, o)
  | .list _ =>
    let cs := portChoices s
    if cs.isEmpty then .error .indexError
    else
      let (i, o') := pickIdx o
      .ok (cs.getD (i % cs.length) (.int 0), o')

/-- Outcome of one handshake attempt inside `open()`. -/
inductive HSRes
| ok
| raiseErr (e : RexErr)
| retry (e : RexErr)
deriving DecidableEq, Repr

/-- The state mutations `open()` makes at the start of a handshake attempt
(base.py:342-348): `in_transaction = False`, `session_key = None`,
`opened = True`, and the session-open request goes on the wire. -/
def hsPre (s : St) : St :=
  { s with in_transaction := false, session_key := none, opened := true,
           sent := s.sent ++ [Req.sessionOpen] }

/-- One handshake attempt of `open()` (base.py:342-355): apply `hsPre`,
then `_open_session()`.  On failure the handler calls `connection_failed()`
(whose own `TypeError` propagates as `raiseErr`); otherwise the loop decides
between re-raising and retrying (`retry` carries the original exception). -/
def handshakeStep (s : St) (o : List Ev) : St × List Ev × HSRes :=
  match sessRT (hsPre s) o with
  | (o1, .ok k) => ({ hsPre s with session_key := some k }, o1, .ok)
  | (o1, .error e) =>
    match connection_failed (hsPre s) with
    | (s2, some e2) => (s2, o1, .raiseErr e2)
    | (s2, none) => (s2, o1, .retry e)

/-- The retry loop of `open()` (base.py:306-357), with `n` the number of
loop iterations remaining (`openConn` starts it at `CONNECTION_ATTEMPTS`).
When `n` reaches 0 the `for` loop has been exhausted by `continue`s and the
function returns `None` silently — exactly as the source does after
`CONNECTION_ATTEMPTS` connect failures.  A handshake failure on the last
iteration re-raises the original exception (`if i >= CONNECTION_ATTEMPTS - 1:
raise`); a handshake failure earlier forces `soft = False` and retries. -/
def openGo : Bool → Nat → St → List Ev → Out Unit
| _, 0, s, o => ⟨s, o, .ok ()⟩
| true, n + 1, s, o =>
  match handshakeStep s o with
  | (s1, o1, .ok) => ⟨s1, o1, .ok ()⟩
  | (s1, o1, .raiseErr e) => ⟨s1, o1, .error e⟩
  | (s1, o1, .retry e) =>
    match n with
    | 0 => ⟨s1, o1, .error e⟩
    | _ + 1 => openGo false n s1 o1
| false, n + 1, s, o =>
  match drawHost { s with conn := some false } o with
  | .error e => ⟨{ s with conn := some false }, o, .error e⟩
  | .ok (h, o1) =>
    match drawPort { s with conn := some false, current_host := some h } o1 with
    | .error e => ⟨{ s with conn := some false, current_host := some h }, o1, .error e⟩
    | .ok (p, o2) =>
      match connectEv o2 with
      | (o3, true) =>
        match handshakeStep
            { s with conn := some true, current_host := some h, current_port := some p } o3 with
        | (s4, o4, .ok) => ⟨s4, o4, .ok ()⟩
        | (s4, o4, .raiseErr e) => ⟨s4, o4, .error e⟩
        | (s4, o4, .retry e) =>
          match n with
          | 0 => ⟨s4, o4, .error e⟩
          | _ + 1 => openGo false n s4 o4
      | (o3, false) =>
        match connection_failed
            { s with conn := some false, current_host := some h, current_port := some p } with
        | (s4, some e2) => ⟨s4, o3, .error e2⟩
        | (s4, none) => openGo false n s4 o3

/-- `RexProBaseConnection.open(soft)` (named `openConn` because `open` is a
Lean keyword). -/
def openConn (soft : Bool) (s : St) (o : List Ev) : Out Unit :=
  openGo soft CONNECTION_ATTEMPTS s o

/-- `RexProBaseConnection.close(soft)` (base.py:272-291): send the kill
request; if the send itself raises, nothing is mutated; otherwise clear
`session_key` and `in_transaction` (and `opened`, unless soft), and only then
raise if the response was an error.  The socket object is never touched. -/
def close (soft : Bool) (s : St) (o : List Ev) : Out Unit :=
  match killRT { s with sent := s.sent ++ [Req.sessionKill] } o with
  | (o1, .sockFail) => ⟨{ s with sent := s.sent ++ [Req.sessionKill] }, o1, .error .sockErr⟩
  | (o1, .errorResp) =>
    ⟨{ s with sent := s.sent ++ [Req.sessionKill],
              opened := if soft then s.opened else false,
              session_key := none, in_transaction := false }, o1, .error .respErr⟩
  | (o1, .okResp) =>
    ⟨{ s with sent := s.sent ++ [Req.sessionKill],
              opened := if soft then s.opened else false,
              session_key := none, in_transaction := false }, o1, .ok ()⟩

/-- The state after `execute` has put one script request on the wire. -/
def scrPre (sc : String) (iso t' : Bool) (s : St) : St :=
  { s with sent := s.sent ++ [Req.scriptReq sc iso t'] }

/-- The retry loop of `execute` (base.py:425-458), with `n` the number of
retries remaining after the current attempt (`execute` starts it at
`CONNECTION_ATTEMPTS - 1`).  The local variable `transaction` (`t`) is forced
to `False` whenever `in_transaction` is set, and the rebinding persists
across retries. -/
def execGo (sc : String) (iso : Bool) : Bool → Nat → St → List Ev → Out (List Int)
| t, n, s, o =>
  match scriptRT (scrPre sc iso (if s.in_transaction then false else t) s) o with
  | (o1, .ok rs) => ⟨scrPre sc iso (if s.in_transaction then false else t) s, o1, .ok rs⟩
  | (o1, .error e) =>
    match connection_failed (scrPre sc iso (if s.in_transaction then false else t) s) with
    | (s2, some e2) => ⟨s2, o1, .error e2⟩
    | (s2, none) =>
      match n with
      | 0 => ⟨s2, o1, .error e⟩
      | n' + 1 =>
        match close false s2 o1 with
        | ⟨s3, o2, .error ec⟩ => ⟨s3, o2, .error ec⟩
        | ⟨s3, o2, .ok _⟩ =>
          match openConn false s3 o2 with
          | ⟨s4, o3, .error eo⟩ => ⟨s4, o3, .error eo⟩
          | ⟨s4, o3, .ok _⟩ => execGo sc iso (if s.in_transaction then false else t) n' s4 o3

/-- `RexProBaseConnection.execute(script, params, isolate, transaction)`
(base.py:410-458; `params` carries no control-flow and is omitted). -/
def execute (sc : String) (iso t : Bool) (s : St) (o : List Ev) : Out (List Int) :=
  execGo sc iso t (CONNECTION_ATTEMPTS - 1) s o

/-- `RexProBaseConnection.open_transaction` (base.py:244-253). -/
def open_transaction (s : St) (o : List Ev) : Out Unit :=
  if s.in_transaction then
    ⟨s, o, .error (.scriptException "transaction is already open")⟩
  else
    match execute "g.stopTransaction(FAILURE)" false false s o with
    | ⟨s1, o1, .ok _⟩ => ⟨{ s1 with in_transaction := true }, o1, .ok ()⟩
    | ⟨s1, o1, .error e⟩ => ⟨s1, o1, .error e⟩

/-- `RexProBaseConnection.close_transaction(success)` (base.py:255-270). -/
def close_transaction (success : Bool) (s : St) (o : List Ev) : Out Unit :=
  if s.in_transaction then
    match execute (if success then "g.stopTransaction(SUCCESS)" else "g.stopTransaction(FAILURE)")
        false false s o with
    | ⟨s1, o1, .ok _⟩ => ⟨{ s1 with in_transaction := false }, o1, .ok ()⟩
    | ⟨s1, o1, .error e⟩ => ⟨s1, o1, .error e⟩
  else
    ⟨s, o, .error (.scriptException "transaction is not open")⟩

/-- The reconnect escalation loop of `test_connection` (timeouts 2, 4, 8;
the timeout values carry no control flow, only the three iterations do).
Every exception inside an iteration is swallowed by `except: pass`;
connecting with a list-valued host or port raises inside the `try` (a list
is not a valid address) and is likewise swallowed. -/
def tcLoop : Nat → St → List Ev → Out Unit
| 0, s, o => ⟨s, o, .error (.connectionException "Could not reconnect to database")⟩
| n + 1, s, o =>
  let s1 := { s with conn := some false }
  match s1.host, s1.port with
  | .list _, _ => tcLoop n s1 o
  | .int _, .list _ => tcLoop n s1 o
  | .str _, .list _ => tcLoop n s1 o
  | _, _ =>
    let (o1, c) := connectEv o
    if c then
      let s2 := { s1 with conn := some true }
      let (o2, r, w) := pollEv o1
      if r || w then
        let s3 := { s2 with in_transaction := false, session_key := none,
                            sent := s2.sent ++ [Req.sessionOpen] }
        match sessRT s3 o2 with
        | (o3, .ok k) => ⟨{ s3 with session_key := some k }, o3, .ok ()⟩
        | (o3, .error _) => tcLoop n s3 o3
      else tcLoop n s2 o2
    else tcLoop n s1 o1

/-- `RexProBaseConnection.test_connection` (base.py:359-385): poll the
socket; if neither readable nor writable, run the escalation loop; raise
`RexProConnectionException` after three failed escalation steps. -/
def test_connection (s : St) (o : List Ev) : Out Unit :=
  match s.conn with
  | none => ⟨s, o, .error .sockErr⟩
  | some _ =>
    let (o1, r, w) := pollEv o
    if r || w then ⟨s, o1, .ok ()⟩
    else tcLoop 3 s o1

/-- The calls the `transaction()` context manager issues, in order. -/
inductive TCall
| test
| openTx
| closeTx (success : Bool)
deriving DecidableEq, Repr

/-- Result of running a `transaction()` scope: final state, remaining
oracle, outcome, and the ordered list of lifecycle calls the scope issued. -/
structure TOut where
  st : St
  evs : List Ev
  res : Except RexErr Unit
  calls : List TCall
deriving Repr

/-- `RexProBaseConnection.transaction` (base.py:387-408): the context
manager calls `test_connection()`, then `open_transaction()`, runs the
caller-supplied body, and closes the transaction with success iff the body
completed normally; a fault from the body is re-raised afterwards, unless
the rollback itself faults, in which case the rollback's fault propagates.
The body is an arbitrary state/oracle transformer. -/
def transaction (body : St → List Ev → Out Unit) (s : St) (o : List Ev) : TOut :=
  match test_connection s o with
  | ⟨s1, o1, .error e⟩ => ⟨s1, o1, .error e, [.test]⟩
  | ⟨s1, o1, .ok _⟩ =>
    match open_transaction s1 o1 with
    | ⟨s2, o2, .error e⟩ => ⟨s2, o2, .error e, [.test, .openTx]⟩
    | ⟨s2, o2, .ok _⟩ =>
      match body s2 o2 with
      | ⟨s3, o3, .ok _⟩ =>
        match close_transaction true s3 o3 with
        | ⟨s4, o4, r⟩ => ⟨s4, o4, r, [.test, .openTx, .closeTx true]⟩
      | ⟨s3, o3, .error e⟩ =>
        match close_transaction false s3 o3 with
        | ⟨s4, o4, .ok _⟩ => ⟨s4, o4, .error e, [.test, .openTx, .closeTx false]⟩
        | ⟨s4, o4, .error e2⟩ => ⟨s4, o4, .error e2, [.test, .openTx, .closeTx false]⟩

/-- The state a fresh `RexProBaseConnection.__init__` builds before calling
`self.open()` (base.py:207-225; the graph/credential strings carry no
control flow in the connection state machine and are kept in the pool
model below). -/
def initSt (host port : PyVal) : St :=
  { host := host, port := port, conn := none, session_key := none, opened := false,
    in_transaction := false, current_host := none, current_port := none,
    host_blacklist := [], port_blacklist := [], sent := [] }

/-- Construction of a connection: `__init__` stores the fields and calls
`open()` (hard). -/
def construct (host port : PyVal) (o : List Ev) : Out Unit :=
  openConn false (initSt host port) o

/-! ### Pool -/

/-- The configuration fields a pool stores and `_create_connection`
merges.  `none` is Python `None` (e.g. the `timeout` default). -/
structure PoolArgs where
  host : Option PyVal
  port : Option PyVal
  graph_name : Option PyVal
  graph_obj_name : Option PyVal
  username : Option PyVal
  password : Option PyVal
  timeout : Option PyVal
deriving DecidableEq, Repr

/-- Python truthiness of an (optional) value: `None`, `0`, `''` and `[]`
are falsy. -/
def truthy : Option PyVal → Bool
| none => false
| some (.int n) => !(n == 0)
| some (.str s) => !(s == "")
| some (.list xs) => !xs.isEmpty

/-- Python `a or b`: `a` when truthy, else `b`. -/
def pyOr (a b : Option PyVal) : Option PyVal :=
  if truthy a then a else b

/-- `RexProBaseConnectionPool._create_connection` (base.py:122-146): the
keyword arguments handed to the connection constructor, merged with
`override or pool_default` per field. -/
def create_connection_args (pool ov : PoolArgs) : PoolArgs :=
  { host := pyOr ov.host pool.host
    port := pyOr ov.port pool.port
    graph_name := pyOr ov.graph_name pool.graph_name
    graph_obj_name := pyOr ov.graph_obj_name pool.graph_obj_name
    username := pyOr ov.username pool.username
    password := pyOr ov.password pool.password
    timeout := pyOr ov.timeout pool.timeout }

/-- `RexProBaseConnectionPool.close_all` (base.py:85-92): drain the idle
queue, call `conn.close()` (hard, `soft` defaulting to `False`) on each
item, suppressing any exception (`except Exception: pass`).  Returns the
final queue and the (suppressed) outcome of each close. -/
def close_all : List (St × List Ev) → List (St × List Ev) × List (Out Unit)
| [] => ([], [])
| (s, o) :: rest =>
  let r := close false s o
  let (q, rs) := close_all rest
  (q, r :: rs)

/-! ### State-machine abstractions used by the theorems -/

/-- The (weakened) connection-state invariant, as a decidable predicate:
`session_key != null → opened == true` and `in_transaction == true → opened
== true`. -/
def invariantB (s : St) : Bool :=
  (s.session_key.isNone || s.opened) && (!s.in_transaction || s.opened)

/-- The connection-state invariant as a proposition. -/
def J (s : St) : Prop :=
  (s.session_key ≠ none → s.opened = true) ∧ (s.in_transaction = true → s.opened = true)

/-- States reachable through the publicly reachable operations named by the
spec: construction, `open`, `close` (either softness), and — invoked only
while a session is open — `open_transaction`, `close_transaction` and
`execute`.  Each step quantifies over an arbitrary oracle, i.e. arbitrary
server/socket behaviour. -/
inductive Reach : St → Prop
| construct (host port : PyVal) (o : List Ev) : Reach (construct host port o).st
| step_open {s : St} (soft : Bool) (o : List Ev) : Reach s → Reach (openConn soft s o).st
| step_close {s : St} (soft : Bool) (o : List Ev) : Reach s → Reach (close soft s o).st
| step_open_transaction {s : St} (o : List Ev) :
    Reach s → s.opened = true → Reach (open_transaction s o).st
| step_close_transaction {s : St} (b : Bool) (o : List Ev) :
    Reach s → s.opened = true → Reach (close_transaction b s o).st
| step_execute {s : St} (sc : String) (iso t : Bool) (o : List Ev) :
    Reach s → s.opened = true → Reach (execute sc iso t s o).st

/-- A valid value for `current_host` at a `connection_failed()` call site:
an element of the configured candidate list, or the configured scalar.
(Every assignment the source makes to `current_host` — base.py:319-329 —
satisfies this, since draws choose from `set(self.host) - blacklist ⊆
set(self.host)`.) -/
def curOkHost (s : St) (h : Option PyScalar) : Prop :=
  (∀ xs, s.host = PyVal.list xs → ∃ x, x ∈ xs ∧ h = some x) ∧
  (∀ n, s.host = PyVal.int n → h = some (PyScalar.int n)) ∧
  (∀ t, s.host = PyVal.str t → h = some (PyScalar.str t))

/-- A valid value for `current_port` at a `connection_failed()` call site. -/
def curOkPort (s : St) (p : Option PyScalar) : Prop :=
  (∀ xs, s.port = PyVal.list xs → ∃ x, x ∈ xs ∧ p = some x) ∧
  (∀ n, s.port = PyVal.int n → p = some (PyScalar.int n)) ∧
  (∀ t, s.port = PyVal.str t → p = some (PyScalar.str t))

/-- All blacklist states reachable from `s0` by any sequence of connection
failures: each failure assigns some valid current endpoint and runs
`connection_failed()` (keeping its state mutations whether or not it
raises, as Python does). -/
inductive FailReach (s0 : St) : St → Prop
| refl : FailReach s0 s0
| step {s : St} (h p : Option PyScalar) : FailReach s0 s → curOkHost s h → curOkPort s p →
    FailReach s0 (connection_failed { s with current_host := h, current_port := p }).1

/-- Invariant tying a blacklist to its candidate list: every entry is a
candidate, entries are distinct, and the blacklist never covers the whole
candidate list. -/
def blInv (cands : List PyScalar) (bl : List (Option PyScalar)) : Prop :=
  (∀ x ∈ bl, ∃ h ∈ cands, x = some h) ∧ bl.Nodup ∧ bl.length < cands.length

/-- The endpoint draw succeeds and chooses a configured candidate. -/
def drawOk (cands : List PyScalar) (cs : List PyScalar) : Bool :=
  !cs.isEmpty && cs.all (fun x => decide (x ∈ cands))

/-- All script requests in a wire-log fragment carry `transaction=false`. -/
def onlyNonTx (l : List Req) : Bool :=
  l.all fun m => match m with | Req.scriptReq _ _ tx => !tx | _ => true

/-- A concrete opened connection state (session established, no
transaction), used by concrete witnesses. -/
def wStOpen : St :=
  { host := PyVal.str "h", port := PyVal.str "p", conn := some true, session_key := some 1,
    opened := true, in_transaction := false, current_host := some (PyScalar.str "h"),
    current_port := some (PyScalar.str "p"), host_blacklist := [], port_blacklist := [],
    sent := [] }

/-- `wStOpen` with an open transaction. -/
def wStTx : St := { wStOpen with in_transaction := true }

/-- A transaction-scope body that completes normally. -/
def wBodyOk : St → List Ev → Out Unit := fun s o => ⟨s, o, Except.ok ()⟩

/-- A transaction-scope body that raises a caller exception. -/
def wBodyFault : St → List Ev → Out Unit := fun s o => ⟨s, o, Except.error (RexErr.userError 5)⟩

/-- A concrete two-host / one-port candidate configuration for witnesses. -/
def wC3s0 : St :=
  initSt (PyVal.list [PyScalar.str "h1", PyScalar.str "h2"]) (PyVal.list [PyScalar.int 8184])

/-- `wC3s0` after one recorded connection failure at `("h1", 8184)`. -/
def wC3s1 : St :=
  (connection_failed { wC3s0 with current_host := some (PyScalar.str "h1"),
                                  current_port := some (PyScalar.int 8184) }).1

/-! ### Helper lemmas -/

theorem connection_failed_preserves (s : St) :
    ((connection_failed s).1).opened = s.opened ∧
    ((connection_failed s).1).session_key = s.session_key ∧
    ((connection_failed s).1).in_transaction = s.in_transaction ∧
    ((connection_failed s).1).conn = s.conn ∧
    ((connection_failed s).1).host = s.host ∧
    ((connection_failed s).1).port = s.port ∧
    ((connection_failed s).1).sent = s.sent := by
  unfold connection_failed
  rcases hh : pyLen s.host with _ | hl <;> rcases hp : pyLen s.port with _ | pl <;> simp [hh, hp]

theorem connection_failed_J {s : St} (h : J s) : J (connection_failed s).1 := by
  obtain ⟨h1, h2, h3, -⟩ := connection_failed_preserves s
  unfold J at h ⊢
  rw [h1, h2, h3]
  exact h

theorem handshakeStep_J (s : St) (o : List Ev) : J (handshakeStep s o).1 := by
  unfold handshakeStep
  rcases hrt : sessRT (hsPre s) o with ⟨o1, r⟩
  rcases r with e | k
  · dsimp only
    rcases hcf : connection_failed (hsPre s) with ⟨s2, e2⟩
    obtain ⟨hop, hsk, htx, -⟩ := connection_failed_preserves (hsPre s)
    rw [hcf] at hop hsk htx
    rcases e2 with _ | e2 <;> simp_all [J, hsPre]
  · simp [J, hsPre]

theorem handshakeStep_conn (s : St) (o : List Ev) : (handshakeStep s o).1.conn = s.conn := by
  unfold handshakeStep
  rcases hrt : sessRT (hsPre s) o with ⟨o1, r⟩
  rcases r with e | k
  · dsimp only
    rcases hcf : connection_failed (hsPre s) with ⟨s2, e2⟩
    obtain ⟨-, -, -, hc, -⟩ := connection_failed_preserves (hsPre s)
    rw [hcf] at hc
    rcases e2 with _ | e2 <;> simp_all [hsPre]
  · simp [hsPre]

theorem handshakeStep_opened (s : St) (o : List Ev) : (handshakeStep s o).1.opened = true := by
  unfold handshakeStep
  rcases hrt : sessRT (hsPre s) o with ⟨o1, r⟩
  rcases r with e | k
  · dsimp only
    rcases hcf : connection_failed (hsPre s) with ⟨s2, e2⟩
    obtain ⟨hop, -⟩ := connection_failed_preserves (hsPre s)
    rw [hcf] at hop
    rcases e2 with _ | e2 <;> simp_all [hsPre]
  · simp [hsPre]

theorem openGo_J {soft : Bool} {n : Nat} {s : St} {o : List Ev} (h : J s) :
    J (openGo soft n s o).st := by
  induction n generalizing soft s o with
  | zero => rw [openGo]; exact h
  | succ m ih =>
    cases soft with
    | true =>
      rw [openGo]
      rcases hh : handshakeStep s o with ⟨s1, o1, r⟩
      have hJ1 : J s1 := by have := handshakeStep_J s o; rwa [hh] at this
      rcases r with _ | e | e
      · exact hJ1
      · exact hJ1
      · rcases m with _ | m'
        · exact hJ1
        · exact ih hJ1
    | false =>
      rw [openGo]
      rcases hdh : drawHost { s with conn := some false } o with e | ⟨h1, o1⟩
      · exact h
      · dsimp only
        rcases hdp : drawPort { s with conn := some false, current_host := some h1 } o1 with
          e | ⟨p1, o2⟩
        · exact h
        · dsimp only
          rcases hce : connectEv o2 with ⟨o3, c⟩
          cases c with
          | true =>
            dsimp only
            rcases hh : handshakeStep
                { s with conn := some true, current_host := some h1, current_port := some p1 }
                o3 with ⟨s4, o4, r⟩
            have hJ4 : J s4 := by
              have := handshakeStep_J
                { s with conn := some true, current_host := some h1, current_port := some p1 } o3
              rwa [hh] at this
            rcases r with _ | e | e
            · exact hJ4
            · exact hJ4
            · rcases m with _ | m'
              · exact hJ4
              · exact ih hJ4
          | false =>
            dsimp only
            rcases hcf : connection_failed
                { s with conn := some false, current_host := some h1, current_port := some p1 }
                with ⟨s4, e2⟩
            have hJ4 : J s4 := by
              have := connection_failed_J (s :=
                { s with conn := some false, current_host := some h1, current_port := some p1 }) h
              rwa [hcf] at this
            rcases e2 with _ | e2
            · exact ih hJ4
            · exact hJ4

theorem openConn_J {soft : Bool} {s : St} {o : List Ev} (h : J s) :
    J (openConn soft s o).st :=
  openGo_J h

theorem close_J {soft : Bool} {s : St} {o : List Ev} (h : J s) : J (close soft s o).st := by
  unfold close
  rcases hk : killRT { s with sent := s.sent ++ [Req.sessionKill] } o with ⟨o1, kr⟩
  rcases kr
  · exact h
  · constructor <;> simp
  · constructor <;> simp

theorem execGo_J {sc : String} {iso : Bool} {t : Bool} {n : Nat} {s : St} {o : List Ev}
    (h : J s) : J (execGo sc iso t n s o).st := by
  induction n generalizing t s o with
  | zero =>
    rw [execGo]
    rcases hrt : scriptRT (scrPre sc iso (if s.in_transaction then false else t) s) o with ⟨o1, r⟩
    rcases r with e | rs
    · dsimp only
      rcases hcf : connection_failed (scrPre sc iso (if s.in_transaction then false else t) s)
        with ⟨s2, e2⟩
      have hJ2 : J s2 := by
        have := connection_failed_J
          (s := scrPre sc iso (if s.in_transaction then false else t) s) h
        rwa [hcf] at this
      rcases e2 with _ | e2
      · exact hJ2
      · exact hJ2
    · exact h
  | succ m ih =>
    rw [execGo]
    rcases hrt : scriptRT (scrPre sc iso (if s.in_transaction then false else t) s) o with ⟨o1, r⟩
    rcases r with e | rs
    · dsimp only
      rcases hcf : connection_failed (scrPre sc iso (if s.in_transaction then false else t) s)
        with ⟨s2, e2⟩
      have hJ2 : J s2 := by
        have := connection_failed_J
          (s := scrPre sc iso (if s.in_transaction then false else t) s) h
        rwa [hcf] at this
      rcases e2 with _ | e2
      · dsimp only
        rcases hcl : close false s2 o1 with ⟨s3, o2, rc⟩
        have hJ3 : J s3 := by have := @close_J false s2 o1 hJ2; rwa [hcl] at this
        rcases rc with ec | v
        · exact hJ3
        · dsimp only
          rcases hop : openConn false s3 o2 with ⟨s4, o3, ro⟩
          have hJ4 : J s4 := by have := @openConn_J false s3 o2 hJ3; rwa [hop] at this
          rcases ro with eo | v2
          · exact hJ4
          · exact ih hJ4
      · exact hJ2
    · exact h

theorem execute_J {sc : String} {iso t : Bool} {s : St} {o : List Ev} (h : J s) :
    J (execute sc iso t s o).st := by
  unfold execute
  exact execGo_J h

theorem openGo_false_ok (n : Nat) (s : St) (o : List Ev) (u : Out Unit)
    (hu : openGo false n s o = u) (hres : u.res = Except.ok ()) :
    (u.st.opened = true ∧ u.st.conn = some true) ∨ u.st.conn = some false ∨
      (n = 0 ∧ u.st = s) := by
  induction n generalizing s o u with
  | zero =>
    rw [openGo] at hu
    exact Or.inr (Or.inr ⟨rfl, by rw [← hu]⟩)
  | succ m ih =>
    rw [openGo] at hu
    rcases hdh : drawHost { s with conn := some false } o with e | ⟨h1, o1⟩ <;>
      rw [hdh] at hu <;> dsimp only at hu
    · subst hu; simp at hres
    · rcases hdp : drawPort { s with conn := some false, current_host := some h1 } o1 with
        e | ⟨p1, o2⟩ <;> rw [hdp] at hu <;> dsimp only at hu
      · subst hu; simp at hres
      · rcases hce : connectEv o2 with ⟨o3, c⟩
        rw [hce] at hu
        cases c <;> dsimp only at hu
        · rcases hcf : connection_failed
              { s with conn := some false, current_host := some h1, current_port := some p1 }
              with ⟨s4, e2⟩
          rw [hcf] at hu
          have hc4 : s4.conn = some false := by
            have := (connection_failed_preserves
              { s with conn := some false, current_host := some h1,
                       current_port := some p1 }).2.2.2.1
            rw [hcf] at this
            exact this
          rcases e2 with _ | e2 <;> dsimp only at hu
          · rcases ih _ _ _ hu hres with h3 | h3 | ⟨hm, h3⟩
            · exact Or.inl h3
            · exact Or.inr (Or.inl h3)
            · rw [h3]
              exact Or.inr (Or.inl hc4)
          · subst hu; simp at hres
        · rcases hh : handshakeStep
              { s with conn := some true, current_host := some h1, current_port := some p1 }
              o3 with ⟨s4, o4, r⟩
          rw [hh] at hu
          have ho4 := handshakeStep_opened
            { s with conn := some true, current_host := some h1, current_port := some p1 } o3
          have hc4 := handshakeStep_conn
            { s with conn := some true, current_host := some h1, current_port := some p1 } o3
          rw [hh] at ho4 hc4
          rcases r with _ | e | e <;> dsimp only at hu
          · subst hu
            exact Or.inl ⟨ho4, hc4⟩
          · subst hu; simp at hres
          · rcases m with _ | m' <;> dsimp only at hu
            · subst hu; simp at hres
            · rcases ih _ _ _ hu hres with h3 | h3 | ⟨hm, h3⟩
              · exact Or.inl h3
              · exact Or.inr (Or.inl h3)
              · rw [h3]
                exact Or.inl ⟨ho4, hc4⟩

theorem execGo_notConn {sc : String} {iso : Bool} (t : Bool) (n : Nat) (s : St) (o : List Ev)
    (hc : s.conn ≠ some true) : ∃ e, (execGo sc iso t n s o).res = Except.error e := by
  rw [execGo]
  have hrt : scriptRT (scrPre sc iso (if s.in_transaction then false else t) s) o =
      (o, Except.error RexErr.sockErr) := by
    unfold scriptRT connected scrPre
    simp [hc]
  rw [hrt]
  dsimp only
  rcases hcf : connection_failed (scrPre sc iso (if s.in_transaction then false else t) s)
    with ⟨s2, e2⟩
  have hc2 : s2.conn = s.conn := by
    have := (connection_failed_preserves
      (scrPre sc iso (if s.in_transaction then false else t) s)).2.2.2.1
    rw [hcf] at this
    exact this
  rcases e2 with _ | e2
  · dsimp only
    rcases n with _ | n'
    · exact ⟨_, rfl⟩
    · dsimp only
      have hclose : close false s2 o =
          ⟨{ s2 with sent := s2.sent ++ [Req.sessionKill] }, o, Except.error RexErr.sockErr⟩ := by
        unfold close killRT connected
        simp [hc2, hc]
      rw [hclose]
      exact ⟨_, rfl⟩
  · exact ⟨_, rfl⟩

theorem execGo_opened {sc : String} {iso : Bool} (n : Nat) (t : Bool) (s : St) (o : List Ev)
    (u : Out (List Int)) (rs : List Int) (hop : s.opened = true)
    (hu : execGo sc iso t n s o = u) (hres : u.res = Except.ok rs) : u.st.opened = true := by
  induction n generalizing t s o u with
  | zero =>
    rw [execGo] at hu
    rcases hrt : scriptRT (scrPre sc iso (if s.in_transaction then false else t) s) o
      with ⟨o1, r⟩
    rw [hrt] at hu
    rcases r with e | rs' <;> dsimp only at hu
    · rcases hcf : connection_failed (scrPre sc iso (if s.in_transaction then false else t) s)
        with ⟨s2, e2⟩
      rw [hcf] at hu
      rcases e2 with _ | e2 <;> dsimp only at hu
      · subst hu; simp at hres
      · subst hu; simp at hres
    · subst hu
      simpa [scrPre] using hop
  | succ m ih =>
    rw [execGo] at hu
    rcases hrt : scriptRT (scrPre sc iso (if s.in_transaction then false else t) s) o
      with ⟨o1, r⟩
    rw [hrt] at hu
    rcases r with e | rs' <;> dsimp only at hu
    · rcases hcf : connection_failed (scrPre sc iso (if s.in_transaction then false else t) s)
        with ⟨s2, e2⟩
      rw [hcf] at hu
      rcases e2 with _ | e2 <;> dsimp only at hu
      · rcases hcl : close false s2 o1 with ⟨s3, o2, rc⟩
        rw [hcl] at hu
        rcases rc with ec | v <;> dsimp only at hu
        · subst hu; simp at hres
        · rcases hoc : openConn false s3 o2 with ⟨s4, o3, ro⟩
          rw [hoc] at hu
          rcases ro with eo | v2 <;> dsimp only at hu
          · subst hu; simp at hres
          · unfold openConn at hoc
            have h34 := openGo_false_ok CONNECTION_ATTEMPTS s3 o2 ⟨s4, o3, Except.ok v2⟩ hoc rfl
            rcases h34 with ⟨ho4, hc4⟩ | hc4 | ⟨h30, -⟩
            · exact ih _ _ _ _ ho4 hu hres
            · exfalso
              obtain ⟨e', he'⟩ := @execGo_notConn sc iso
                (if s.in_transaction then false else t) m s4 o3 (by rw [hc4]; simp)
              rw [hu, hres] at he'
              simp at he'
            · exact absurd h30 (by decide)
      · subst hu; simp at hres
    · subst hu
      simpa [scrPre] using hop

theorem initSt_J (host port : PyVal) : J (initSt host port) := by
  constructor
  · intro h
    exact absurd rfl h
  · intro h
    exact absurd h (by simp [initSt])

theorem open_transaction_J {s : St} {o : List Ev} (hop : s.opened = true) (h : J s) :
    J (open_transaction s o).st := by
  unfold open_transaction
  rcases hi : s.in_transaction
  · simp only [Bool.false_eq_true, if_false]
    rcases he : execute "g.stopTransaction(FAILURE)" false false s o with ⟨s1, o1, r⟩
    have hJ1 : J s1 := by
      have := @execute_J "g.stopTransaction(FAILURE)" false false s o h
      rwa [he] at this
    rcases r with e | v <;> dsimp only
    · exact hJ1
    · have h1 : s1.opened = true := by
        have := @execGo_opened "g.stopTransaction(FAILURE)" false
          (CONNECTION_ATTEMPTS - 1) false s o ⟨s1, o1, Except.ok v⟩ v hop (by rw [← he]; rfl) rfl
        exact this
      exact ⟨fun _ => h1, fun _ => h1⟩
  · simp only [if_true]
    exact h

theorem close_transaction_J {b : Bool} {s : St} {o : List Ev} (h : J s) :
    J (close_transaction b s o).st := by
  unfold close_transaction
  rcases hi : s.in_transaction
  · simp only [Bool.false_eq_true, if_false]
    exact h
  · simp only [if_true]
    rcases he : execute (if b then "g.stopTransaction(SUCCESS)" else "g.stopTransaction(FAILURE)")
        false false s o with ⟨s1, o1, r⟩
    have hJ1 : J s1 := by
      have := @execute_J (if b then "g.stopTransaction(SUCCESS)"
        else "g.stopTransaction(FAILURE)") false false s o h
      rwa [he] at this
    rcases r with e | v <;> dsimp only
    · exact hJ1
    · exact ⟨fun hk => hJ1.1 hk, fun hk => by simp at hk⟩

theorem reach_J {s : St} (h : Reach s) : J s := by
  induction h with
  | construct host port o => exact openConn_J (initSt_J host port)
  | step_open soft o _ ih => exact openConn_J ih
  | step_close soft o _ ih => exact close_J ih
  | step_open_transaction o _ hop ih => exact open_transaction_J hop ih
  | step_close_transaction b o _ hop ih => exact close_transaction_J ih
  | step_execute sc iso t o _ hop ih => exact execute_J ih

theorem sadd_nodup {x : Option PyScalar} {l : List (Option PyScalar)} (h : l.Nodup) :
    (sadd x l).Nodup := by
  unfold sadd
  split
  · exact h
  · exact List.nodup_cons.mpr ⟨by assumption, h⟩

theorem sadd_mem {x y : Option PyScalar} {l : List (Option PyScalar)} (h : y ∈ sadd x l) :
    y = x ∨ y ∈ l := by
  unfold sadd at h
  split at h
  · exact Or.inr h
  · rcases List.mem_cons.mp h with h1 | h1
    · exact Or.inl h1
    · exact Or.inr h1

theorem nodup_subset_length_le {α : Type} (l1 l2 : List α) (h1 : l1.Nodup) (hsub : l1 ⊆ l2) :
    l1.length ≤ l2.length :=
  (List.subperm_of_subset h1 hsub).length_le

theorem connection_failed_host_blacklist (s : St) (xs : List PyScalar)
    (hh : s.host = PyVal.list xs) :
    ((connection_failed s).1).host_blacklist =
      (if xs.length ≤ (sadd s.current_host s.host_blacklist).length then []
       else sadd s.current_host s.host_blacklist) := by
  unfold connection_failed
  rcases hp : pyLen s.port with _ | pl <;> simp [hh, pyLen, hp]

theorem connection_failed_port_blacklist (s : St) (ps : List PyScalar)
    (hp : s.port = PyVal.list ps) (hh : (pyLen s.host).isSome = true) :
    ((connection_failed s).1).port_blacklist =
      (if ps.length ≤ (sadd s.current_port s.port_blacklist).length then []
       else sadd s.current_port s.port_blacklist) := by
  unfold connection_failed
  rcases hhl : pyLen s.host with _ | hl
  · rw [hhl] at hh
    simp at hh
  · simp [hhl, hp, pyLen]

theorem blInv_init (cands : List PyScalar) (hne : cands ≠ []) : blInv cands [] :=
  ⟨by simp, List.nodup_nil, by simpa using List.length_pos.mpr hne⟩

theorem blInv_step (cands : List PyScalar) (hne : cands ≠ []) (bl : List (Option PyScalar))
    (x : PyScalar) (hx : x ∈ cands) (hinv : blInv cands bl) :
    blInv cands
      (if cands.length ≤ (sadd (some x) bl).length then [] else sadd (some x) bl) := by
  by_cases hle : cands.length ≤ (sadd (some x) bl).length
  · rw [if_pos hle]
    exact blInv_init cands hne
  · rw [if_neg hle]
    refine ⟨?_, sadd_nodup hinv.2.1, by omega⟩
    intro y hy
    rcases sadd_mem hy with rfl | hy2
    · exact ⟨x, hx, rfl⟩
    · exact hinv.1 y hy2

theorem failReach_host_inv (s0 s : St) (hs : List PyScalar)
    (hhost : s0.host = PyVal.list hs) (hne : hs ≠ []) (hbl : s0.host_blacklist = [])
    (hr : FailReach s0 s) :
    s.host = PyVal.list hs ∧ blInv hs s.host_blacklist := by
  induction hr with
  | refl => exact ⟨hhost, by rw [hbl]; exact blInv_init hs hne⟩
  | @step s1 h p hr2 hch hcp ih =>
    obtain ⟨ihh, ihinv⟩ := ih
    have hpres := connection_failed_preserves { s1 with current_host := h, current_port := p }
    constructor
    · rw [hpres.2.2.2.2.1]
      exact ihh
    · have hblx := connection_failed_host_blacklist
        { s1 with current_host := h, current_port := p } hs ihh
      rw [hblx]
      obtain ⟨x, hx, rfl⟩ := hch.1 hs ihh
      exact blInv_step hs hne s1.host_blacklist x hx ihinv

theorem failReach_port_inv (s0 s : St) (ps : List PyScalar)
    (hport : s0.port = PyVal.list ps) (hne : ps ≠ []) (hbl : s0.port_blacklist = [])
    (hhost : (pyLen s0.host).isSome = true) (hr : FailReach s0 s) :
    s.port = PyVal.list ps ∧ s.host = s0.host ∧ blInv ps s.port_blacklist := by
  induction hr with
  | refl => exact ⟨hport, rfl, by rw [hbl]; exact blInv_init ps hne⟩
  | @step s1 h p hr2 hch hcp ih =>
    obtain ⟨ihp, ihh, ihinv⟩ := ih
    have hpres := connection_failed_preserves { s1 with current_host := h, current_port := p }
    refine ⟨?_, ?_, ?_⟩
    · rw [hpres.2.2.2.2.2.1]
      exact ihp
    · rw [hpres.2.2.2.2.1]
      exact ihh
    · have hblx := connection_failed_port_blacklist
        { s1 with current_host := h, current_port := p } ps ihp
        (by show (pyLen s1.host).isSome = true
            rw [ihh]
            exact hhost)
      rw [hblx]
      obtain ⟨x, hx, rfl⟩ := hcp.1 ps ihp
      exact blInv_step ps hne s1.port_blacklist x hx ihinv

theorem blInv_choices (cands : List PyScalar) (bl : List (Option PyScalar))
    (hnd : cands.Nodup) (hinv : blInv cands bl) :
    drawOk cands (cands.dedup.filter (fun h => decide (some h ∉ bl))) = true := by
  unfold drawOk
  rw [List.dedup_eq_self.mpr hnd]
  refine (Bool.and_eq_true _ _).mpr ⟨?_, ?_⟩
  · by_contra hemp
    have hemp2 : (cands.filter (fun h => decide (some h ∉ bl))) = [] := by
      rw [← List.isEmpty_iff]
      simpa using hemp
    have hsubset : ∀ x ∈ cands, (some x : Option PyScalar) ∈ bl := by
      intro x hx
      by_contra hnx
      have hmem : x ∈ cands.filter (fun h => decide (some h ∉ bl)) :=
        List.mem_filter.mpr ⟨hx, by simpa using hnx⟩
      rw [hemp2] at hmem
      exact absurd hmem (List.not_mem_nil x)
    have hinj : (cands.map some).Nodup := hnd.map (Option.some_injective PyScalar)
    have hsub2 : (cands.map some) ⊆ bl := by
      intro y hy
      obtain ⟨x, hx, rfl⟩ := List.mem_map.mp hy
      exact hsubset x hx
    have hle := nodup_subset_length_le _ _ hinj hsub2
    rw [List.length_map] at hle
    have hlt := hinv.2.2
    omega
  · rw [List.all_eq_true]
    intro x hx
    simpa using (List.mem_filter.mp hx).1

/-! ### C3 claim -/

/-! ### Claim theorems -/

/-- C1: evaluating `open()` at the failing input.  With host candidates
`["h1","h2"]` and port candidates `[8184]`, three consecutive connect
failures make `open()` return `None` silently — outcome `ok` with
`opened = false` and no session — instead of raising a ConnectionFault as
the claim (and spec §8) require; whereas two connect failures followed by a
successful connect and handshake yield `opened = true` and a freshly stored
`session_key`, as the claim's second half states. -/
theorem c1_open_exhaustion_behaviour :
    ((openConn false (initSt (PyVal.list [PyScalar.str "h1", PyScalar.str "h2"])
        (PyVal.list [PyScalar.int 8184]))
        [Ev.connectFail, Ev.connectFail, Ev.connectFail]).res = Except.ok () ∧
     (openConn false (initSt (PyVal.list [PyScalar.str "h1", PyScalar.str "h2"])
        (PyVal.list [PyScalar.int 8184]))
        [Ev.connectFail, Ev.connectFail, Ev.connectFail]).st.opened = false ∧
     (openConn false (initSt (PyVal.list [PyScalar.str "h1", PyScalar.str "h2"])
        (PyVal.list [PyScalar.int 8184]))
        [Ev.connectFail, Ev.connectFail, Ev.connectFail]).st.session_key = none) ∧
    ((openConn false (initSt (PyVal.list [PyScalar.str "h1", PyScalar.str "h2"])
        (PyVal.list [PyScalar.int 8184]))
        [Ev.connectFail, Ev.connectFail, Ev.connectOk, Ev.sessionOk 42]).res = Except.ok () ∧
     (openConn false (initSt (PyVal.list [PyScalar.str "h1", PyScalar.str "h2"])
        (PyVal.list [PyScalar.int 8184]))
        [Ev.connectFail, Ev.connectFail, Ev.connectOk, Ev.sessionOk 42]).st.opened = true ∧
     (openConn false (initSt (PyVal.list [PyScalar.str "h1", PyScalar.str "h2"])
        (PyVal.list [PyScalar.int 8184]))
        [Ev.connectFail, Ev.connectFail, Ev.connectOk, Ev.sessionOk 42]).st.session_key
        = some 42) := by
  exact ⟨⟨rfl, rfl, rfl⟩, ⟨rfl, rfl, rfl⟩⟩

/-- C2 (amended): after every publicly reachable operation — construction,
`open`, `close`, and `open_transaction` / `close_transaction` / `execute`
invoked while `opened == true` — the weakened invariant holds:
`session_key != null` implies `opened == true`, and `in_transaction == true`
implies `opened == true`.  The original biconditional
`session_key != null ⇔ opened` is refuted by `c2_soft_close_biconditional_fails`. -/
theorem c2_reachable_states_invariant (s : St) (h : Reach s) : invariantB s = true := by
  have hJ := reach_J h
  unfold invariantB
  rcases hsk : s.session_key with _ | k
  · rcases hitx : s.in_transaction
    · simp
    · simp [hJ.2 hitx]
  · have hop : s.opened = true := hJ.1 (by rw [hsk]; simp)
    simp [hop]

/-- C2 witness: the invariant evaluated on a concretely constructed
connection. -/
theorem c2_reachable_states_invariant_witness :
    invariantB (construct (PyVal.str "h") (PyVal.str "p")
      [Ev.connectOk, Ev.sessionOk 7]).st = true :=
  c2_reachable_states_invariant _
    (Reach.construct (PyVal.str "h") (PyVal.str "p") [Ev.connectOk, Ev.sessionOk 7])

/-- C2 counterexample: construct a connection (session 7 established), then
`close(soft=true)`: the resulting state has `opened = true` but
`session_key = null`, refuting `session_key != null ⇔ opened == true`. -/
theorem c2_soft_close_biconditional_fails :
    (close true (construct (PyVal.str "h") (PyVal.str "p")
        [Ev.connectOk, Ev.sessionOk 7]).st [Ev.ack]).st.opened = true ∧
    (close true (construct (PyVal.str "h") (PyVal.str "p")
        [Ev.connectOk, Ev.sessionOk 7]).st [Ev.ack]).st.session_key = none := by
  exact ⟨rfl, rfl⟩

/-- C6: calling `open_transaction` while `in_transaction == true`, and
`close_transaction` while `in_transaction == false`, raise the
`RexProScriptException` usage fault (`UsageFault` in the spec's taxonomy)
with the respective guard message, consume no oracle events, and leave the
state — in particular `in_transaction` — unchanged. -/
theorem c6_usage_faults (s : St) (o : List Ev) (b : Bool) :
    (s.in_transaction = true →
      open_transaction s o =
        ⟨s, o, Except.error (RexErr.scriptException "transaction is already open")⟩) ∧
    (s.in_transaction = false →
      close_transaction b s o =
        ⟨s, o, Except.error (RexErr.scriptException "transaction is not open")⟩) := by
  constructor
  · intro h
    unfold open_transaction
    rw [if_pos h]
  · intro h
    unfold close_transaction
    rw [if_neg (by simp [h])]

/-- C6 witness: both usage faults evaluated at concrete states. -/
theorem c6_usage_faults_witness :
    open_transaction wStTx [] =
      ⟨wStTx, [], Except.error (RexErr.scriptException "transaction is already open")⟩ ∧
    close_transaction true wStOpen [] =
      ⟨wStOpen, [], Except.error (RexErr.scriptException "transaction is not open")⟩ :=
  ⟨(c6_usage_faults wStTx [] true).1 rfl, (c6_usage_faults wStOpen [] true).2 rfl⟩

/-- C8 (amended): in `_create_connection`, a per-call override wins over the
pool default exactly when the override value is truthy; a falsy override
(`None`, `0`, empty string, empty list) falls back to the pool default, for
every one of the seven fields.  The original claim (override wins whenever
provided, including `0` and the empty string) is refuted by
`c8_falsy_override_loses`. -/
theorem c8_truthy_override_merge (pool ov : PoolArgs) :
    ((truthy ov.host = true → (create_connection_args pool ov).host = ov.host) ∧
     (truthy ov.host = false → (create_connection_args pool ov).host = pool.host)) ∧
    ((truthy ov.port = true → (create_connection_args pool ov).port = ov.port) ∧
     (truthy ov.port = false → (create_connection_args pool ov).port = pool.port)) ∧
    ((truthy ov.graph_name = true →
        (create_connection_args pool ov).graph_name = ov.graph_name) ∧
     (truthy ov.graph_name = false →
        (create_connection_args pool ov).graph_name = pool.graph_name)) ∧
    ((truthy ov.graph_obj_name = true →
        (create_connection_args pool ov).graph_obj_name = ov.graph_obj_name) ∧
     (truthy ov.graph_obj_name = false →
        (create_connection_args pool ov).graph_obj_name = pool.graph_obj_name)) ∧
    ((truthy ov.username = true → (create_connection_args pool ov).username = ov.username) ∧
     (truthy ov.username = false → (create_connection_args pool ov).username = pool.username)) ∧
    ((truthy ov.password = true → (create_connection_args pool ov).password = ov.password) ∧
     (truthy ov.password = false → (create_connection_args pool ov).password = pool.password)) ∧
    ((truthy ov.timeout = true → (create_connection_args pool ov).timeout = ov.timeout) ∧
     (truthy ov.timeout = false → (create_connection_args pool ov).timeout = pool.timeout)) := by
  refine ⟨⟨?_, ?_⟩, ⟨?_, ?_⟩, ⟨?_, ?_⟩, ⟨?_, ?_⟩, ⟨?_, ?_⟩, ⟨?_, ?_⟩, ⟨?_, ?_⟩⟩ <;>
    intro h <;> simp [create_connection_args, pyOr, h]

/-- C8 witness: a truthy override (port 9999) wins; a falsy override
(username set to the empty string) falls back to the pool default. -/
theorem c8_truthy_override_merge_witness :
    (create_connection_args
      { host := some (PyVal.str "localhost"), port := some (PyVal.int 8184),
        graph_name := some (PyVal.str "graph"), graph_obj_name := some (PyVal.str "g"),
        username := some (PyVal.str "admin"), password := some (PyVal.str "pw"),
        timeout := none }
      { host := none, port := some (PyVal.int 9999), graph_name := none,
        graph_obj_name := none, username := some (PyVal.str ""), password := none,
        timeout := none }).port = some (PyVal.int 9999) ∧
    (create_connection_args
      { host := some (PyVal.str "localhost"), port := some (PyVal.int 8184),
        graph_name := some (PyVal.str "graph"), graph_obj_name := some (PyVal.str "g"),
        username := some (PyVal.str "admin"), password := some (PyVal.str "pw"),
        timeout := none }
      { host := none, port := some (PyVal.int 9999), graph_name := none,
        graph_obj_name := none, username := some (PyVal.str ""), password := none,
        timeout := none }).username = some (PyVal.str "admin") := by
  constructor
  · exact ((c8_truthy_override_merge _ _).2.1).1 rfl
  · exact ((c8_truthy_override_merge _ _).2.2.2.2.1).2 rfl

/-- C8 counterexample: the caller provides `port = 0`; `0 or 8184` evaluates
to the pool default `8184`, so the provided override does not win, refuting
the claim for falsy values such as `0`. -/
theorem c8_falsy_override_loses :
    (create_connection_args
      { host := some (PyVal.str "localhost"), port := some (PyVal.int 8184),
        graph_name := some (PyVal.str "graph"), graph_obj_name := some (PyVal.str "g"),
        username := some (PyVal.str ""), password := some (PyVal.str ""),
        timeout := none }
      { host := none, port := some (PyVal.int 0), graph_name := none,
        graph_obj_name := none, username := none, password := none,
        timeout := none }).port = some (PyVal.int 8184) ∧
    some (PyVal.int 8184) ≠ some (PyVal.int 0) := by
  exact ⟨rfl, by decide⟩

/-- C9: `close_all` removes every connection from the idle queue (the queue
is empty afterwards), issues a hard close (`soft = false`, the source's
default) on each one, and never raises — each close outcome, error or not,
is suppressed and processing continues through the whole queue. -/
theorem c9_close_all_drains (q : List (St × List Ev)) :
    (close_all q).1 = [] ∧
    (close_all q).2 = q.map (fun c => close false c.1 c.2) ∧
    (close_all q).2.length = q.length := by
  induction q with
  | nil => simp [close_all]
  | cons hd tl ih =>
    rcases hd with ⟨s, o⟩
    refine ⟨?_, ?_, ?_⟩ <;> simp [close_all, ih.1, ih.2.1, ih.2.2]

/-- C7: for every `close(soft)` call on an open connection whose kill
round trip yields a server response (event `e ≠ ioFail`): `session_key` is
cleared to `null` and `in_transaction` to `false` unconditionally — also
when the response is an error, in which case the fault is raised after the
state is cleared (the error outcome coexists with the cleared state);
the socket handle is untouched; `opened` stays `true` iff `soft`. -/
theorem c7_close_clears_state (s : St) (o' : List Ev) (e : Ev) (soft : Bool)
    (hconn : s.conn = some true) (hop : s.opened = true) (he : e ≠ Ev.ioFail) :
    (close soft s (e :: o')).st.session_key = none ∧
    (close soft s (e :: o')).st.in_transaction = false ∧
    (close soft s (e :: o')).st.conn = s.conn ∧
    (close soft s (e :: o')).st.opened = soft ∧
    (close soft s (e :: o')).res =
      (if e = Ev.errResp then Except.error RexErr.respErr else Except.ok ()) := by
  have hk : killRT { s with sent := s.sent ++ [Req.sessionKill] } (e :: o') =
      (o', if e = Ev.errResp then KillRes.errorResp else KillRes.okResp) := by
    unfold killRT connected
    cases e <;> simp_all
  unfold close
  rw [hk]
  by_cases he2 : e = Ev.errResp
  · simp only [he2, if_pos]
    cases soft <;> simp_all
  · simp only [if_neg he2]
    cases soft <;> simp_all

/-- C7 witness: a soft close and a hard close on a concrete open state with
an error response: state cleared, socket kept, fault raised after. -/
theorem c7_close_clears_state_witness :
    ((close true wStTx [Ev.errResp]).st.session_key = none ∧
     (close true wStTx [Ev.errResp]).st.in_transaction = false ∧
     (close true wStTx [Ev.errResp]).st.conn = wStTx.conn ∧
     (close true wStTx [Ev.errResp]).st.opened = true ∧
     (close true wStTx [Ev.errResp]).res =
       (if Ev.errResp = Ev.errResp then Except.error RexErr.respErr else Except.ok ())) ∧
    ((close false wStTx [Ev.ack]).st.session_key = none ∧
     (close false wStTx [Ev.ack]).st.in_transaction = false ∧
     (close false wStTx [Ev.ack]).st.conn = wStTx.conn ∧
     (close false wStTx [Ev.ack]).st.opened = false ∧
     (close false wStTx [Ev.ack]).res =
       (if Ev.ack = Ev.errResp then Except.error RexErr.respErr else Except.ok ())) :=
  ⟨c7_close_clears_state wStTx [] Ev.errResp true rfl rfl (by decide),
   c7_close_clears_state wStTx [] Ev.ack false rfl rfl (by decide)⟩

theorem connection_failed_typeError (s : St) (p : Int) (hp : s.port = PyVal.int p) :
    (connection_failed s).2 = some RexErr.typeError := by
  unfold connection_failed
  rcases hh : pyLen s.host with _ | hl
  · simp [hh]
  · simp [hh, hp, pyLen]

/-- C10: `connection_failed()` takes `len()` of the configured `host` and
`port` values themselves.  With a scalar integer port, every call of
`connection_failed()` raises `TypeError` (after mutating the blacklists),
and consequently `open()` on such a connection propagates `TypeError` out of
its very first connect failure instead of retrying. -/
theorem c10_int_port_typeerror (s : St) (p : Int) (hp : s.port = PyVal.int p) :
    (connection_failed s).2 = some RexErr.typeError ∧
    (∀ (hst : String) (o : List Ev), s.host = PyVal.str hst →
      (openConn false s (Ev.connectFail :: o)).res = Except.error RexErr.typeError) := by
  refine ⟨connection_failed_typeError s p hp, ?_⟩
  intro hst o hh
  rw [show openConn false s (Ev.connectFail :: o)
      = openGo false (2 + 1) s (Ev.connectFail :: o) from rfl]
  rw [openGo]
  have hdh : drawHost { s with conn := some false } (Ev.connectFail :: o) =
      Except.ok (PyScalar.str hst, Ev.connectFail :: o) := by
    unfold drawHost
    simp [hh]
  rw [hdh]
  dsimp only
  have hdp : drawPort { s with conn := some false, current_host := some (PyScalar.str hst) }
      (Ev.connectFail :: o) = Except.ok (PyScalar.int p, Ev.connectFail :: o) := by
    unfold drawPort
    simp [hp]
  rw [hdp]
  dsimp only
  rw [show connectEv (Ev.connectFail :: o) = (o, false) from rfl]
  dsimp only
  rcases hcf : connection_failed
      { s with conn := some false, current_host := some (PyScalar.str hst),
               current_port := some (PyScalar.int p) } with ⟨s4, e2⟩
  have h2 := connection_failed_typeError
    { s with conn := some false, current_host := some (PyScalar.str hst),
             current_port := some (PyScalar.int p) } p hp
  rw [hcf] at h2
  dsimp only at h2
  rw [h2]

/-- C10 witness: a concrete connection configured with `host="localhost"`,
`port=8184` (a scalar int): `connection_failed` raises `TypeError` and
`open()` propagates it on the first connect failure. -/
theorem c10_int_port_typeerror_witness :
    (connection_failed { initSt (PyVal.str "localhost") (PyVal.int 8184) with
        current_host := some (PyScalar.str "localhost"),
        current_port := some (PyScalar.int 8184) }).2 = some RexErr.typeError ∧
    (openConn false (initSt (PyVal.str "localhost") (PyVal.int 8184))
        [Ev.connectFail]).res = Except.error RexErr.typeError :=
  ⟨(c10_int_port_typeerror _ 8184 rfl).1,
   (c10_int_port_typeerror (initSt (PyVal.str "localhost") (PyVal.int 8184)) 8184 rfl).2
     "localhost" [] rfl⟩

/-- C3 (amended): for every sequence of connection failures on a connection
whose host (resp. port) is a duplicate-free, non-empty candidate list, the
blacklist never covers the candidate set at the moment of a draw: the choice
set is non-empty and contained in the configured candidates (for the port
dimension this additionally requires the host value to support `len()`,
i.e. not be a bare int, since the host reset check runs first and its
`TypeError` would skip the port reset).  With duplicates in the candidate
list the property fails (`c3_duplicate_candidates_draw_fails`), because the
reset compares the blacklist cardinality against `len()` of the raw list,
counting duplicates. -/
theorem c3_blacklist_never_covers (s0 s : St) (hs ps : List PyScalar)
    (hr : FailReach s0 s) :
    (s0.host = PyVal.list hs → hs ≠ [] → hs.Nodup → s0.host_blacklist = [] →
      drawOk hs (hostChoices s) = true) ∧
    (s0.port = PyVal.list ps → ps ≠ [] → ps.Nodup → s0.port_blacklist = [] →
      (pyLen s0.host).isSome = true → drawOk ps (portChoices s) = true) := by
  constructor
  · intro h1 h2 h3 h4
    obtain ⟨hh, hinv⟩ := failReach_host_inv s0 s hs h1 h2 h4 hr
    have hch := blInv_choices hs s.host_blacklist h3 hinv
    unfold hostChoices
    rw [hh]
    exact hch
  · intro h1 h2 h3 h4 h5
    obtain ⟨hp, -, hinv⟩ := failReach_port_inv s0 s ps h1 h2 h4 h5 hr
    have hch := blInv_choices ps s.port_blacklist h3 hinv
    unfold portChoices
    rw [hp]
    exact hch

/-- C3 witness: after one failure at `("h1", 8184)` with candidates
`["h1","h2"]` and `[8184]`, both draws still succeed inside the candidate
sets (the port blacklist, having covered its whole one-element candidate
set, was cleared). -/
theorem c3_blacklist_never_covers_witness :
    drawOk [PyScalar.str "h1", PyScalar.str "h2"] (hostChoices wC3s1) = true ∧
    drawOk [PyScalar.int 8184] (portChoices wC3s1) = true := by
  have hch : curOkHost wC3s0 (some (PyScalar.str "h1")) := by
    refine ⟨?_, ?_, ?_⟩
    · intro xs hxs
      simp only [wC3s0, initSt] at hxs
      cases hxs
      exact ⟨PyScalar.str "h1", by simp, rfl⟩
    · intro n hn
      simp [wC3s0, initSt] at hn
    · intro t ht
      simp [wC3s0, initSt] at ht
  have hcp : curOkPort wC3s0 (some (PyScalar.int 8184)) := by
    refine ⟨?_, ?_, ?_⟩
    · intro xs hxs
      simp only [wC3s0, initSt] at hxs
      cases hxs
      exact ⟨PyScalar.int 8184, by simp, rfl⟩
    · intro n hn
      simp [wC3s0, initSt] at hn
    · intro t ht
      simp [wC3s0, initSt] at ht
  have hfr : FailReach wC3s0 wC3s1 :=
    FailReach.step (some (PyScalar.str "h1")) (some (PyScalar.int 8184))
      FailReach.refl hch hcp
  have h := c3_blacklist_never_covers wC3s0 wC3s1
    [PyScalar.str "h1", PyScalar.str "h2"] [PyScalar.int 8184] hfr
  exact ⟨h.1 rfl (by decide) (by decide) rfl, h.2 rfl (by decide) (by decide) rfl rfl⟩

/-- C3 counterexample: with the duplicated candidate list `["A","A"]`, after
a single connect failure the blacklist `{"A"}` covers the whole candidate
set yet is not cleared (1 < len(["A","A"]) = 2), and the next endpoint draw
raises `IndexError` instead of succeeding. -/
theorem c3_duplicate_candidates_draw_fails :
    (openConn false (initSt (PyVal.list [PyScalar.str "A", PyScalar.str "A"])
        (PyVal.str "p")) [Ev.pick 0, Ev.connectFail]).res
      = Except.error RexErr.indexError ∧
    (openConn false (initSt (PyVal.list [PyScalar.str "A", PyScalar.str "A"])
        (PyVal.str "p")) [Ev.pick 0, Ev.connectFail]).st.host_blacklist
      = [some (PyScalar.str "A")] := by
  exact ⟨rfl, rfl⟩

/-- C4 (amended): every `transaction()` scope first calls
`test_connection()`, then `open_transaction()`.  When both succeed and the
wrapped body completes normally, the scope issues exactly one
`close_transaction(success=true)` and its outcome is the scope's outcome;
when the body faults, the scope issues exactly one
`close_transaction(success=false)` and re-raises the original fault
unchanged provided the rollback call itself completes without fault — if
the rollback faults, the rollback's fault propagates instead and the
original is lost (`c4_rollback_fault_replaces_original`). -/
theorem c4_transaction_scope (body : St → List Ev → Out Unit) (s : St) (o : List Ev)
    (h1 : (test_connection s o).res = Except.ok ())
    (h2 : (open_transaction (test_connection s o).st (test_connection s o).evs).res
        = Except.ok ()) :
    ∀ u : Out Unit,
      body (open_transaction (test_connection s o).st (test_connection s o).evs).st
           (open_transaction (test_connection s o).st (test_connection s o).evs).evs = u →
      (u.res = Except.ok () →
        (transaction body s o).calls = [TCall.test, TCall.openTx, TCall.closeTx true] ∧
        (transaction body s o).res = (close_transaction true u.st u.evs).res) ∧
      (∀ e, u.res = Except.error e →
        (transaction body s o).calls = [TCall.test, TCall.openTx, TCall.closeTx false] ∧
        ((close_transaction false u.st u.evs).res = Except.ok () →
          (transaction body s o).res = Except.error e)) := by
  intro u hu
  rcases ht : test_connection s o with ⟨s1, o1, r1⟩
  rw [ht] at h1 h2 hu
  dsimp only at h1 h2 hu
  subst h1
  rcases hot : open_transaction s1 o1 with ⟨s2, o2, r2⟩
  rw [hot] at h2 hu
  dsimp only at h2 hu
  subst h2
  unfold transaction
  rw [ht]
  dsimp only
  rw [hot]
  dsimp only
  rw [hu]
  constructor
  · intro hres
    rcases u with ⟨s3, o3, r3⟩
    dsimp only at hres
    subst hres
    dsimp only
    exact ⟨rfl, rfl⟩
  · intro e hres
    rcases u with ⟨s3, o3, r3⟩
    dsimp only at hres
    subst hres
    dsimp only
    rcases hc2 : close_transaction false s3 o3 with ⟨s4, o4, r4⟩
    rcases r4 with e2 | v4
    · dsimp only
      refine ⟨rfl, ?_⟩
      intro hok
      exact absurd hok (by simp)
    · dsimp only
      exact ⟨rfl, fun _ => rfl⟩

/-- C4 witness: a concretely evaluated scope whose body completes normally:
call order `[test, openTx, closeTx true]` and outcome ok. -/
theorem c4_transaction_scope_witness :
    (transaction wBodyOk wStOpen
        [Ev.poll true true, Ev.scriptOk [], Ev.scriptOk []]).calls
      = [TCall.test, TCall.openTx, TCall.closeTx true] ∧
    (transaction wBodyOk wStOpen
        [Ev.poll true true, Ev.scriptOk [], Ev.scriptOk []]).res = Except.ok () := by
  have h := (c4_transaction_scope wBodyOk wStOpen
    [Ev.poll true true, Ev.scriptOk [], Ev.scriptOk []] rfl rfl _ rfl).1 rfl
  exact ⟨h.1, by rw [h.2]; rfl⟩

/-- C4 counterexample: the body faults with `userError 5`; the rollback's
`close_transaction(success=false)` itself faults (socket failures on the
rollback script and on the close inside its retry), so the scope raises
`sockErr` — the original fault is not re-raised unchanged, refuting the
unconditional claim. -/
theorem c4_rollback_fault_replaces_original :
    (transaction wBodyFault wStOpen
        [Ev.poll true true, Ev.scriptOk [], Ev.ioFail, Ev.ioFail]).calls
      = [TCall.test, TCall.openTx, TCall.closeTx false] ∧
    wBodyFault wStOpen [] = ⟨wStOpen, [], Except.error (RexErr.userError 5)⟩ ∧
    (transaction wBodyFault wStOpen
        [Ev.poll true true, Ev.scriptOk [], Ev.ioFail, Ev.ioFail]).res
      = Except.error RexErr.sockErr ∧
    (Except.error RexErr.sockErr : Except RexErr Unit)
      ≠ Except.error (RexErr.userError 5) := by
  refine ⟨rfl, rfl, rfl, by decide⟩

theorem close_sent (soft : Bool) (s : St) (o : List Ev) :
    (close soft s o).st.sent = s.sent ++ [Req.sessionKill] := by
  unfold close
  rcases hk : killRT { s with sent := s.sent ++ [Req.sessionKill] } o with ⟨o1, kr⟩
  rcases kr <;> rfl

theorem handshakeStep_sent (s : St) (o : List Ev) :
    (handshakeStep s o).1.sent = s.sent ++ [Req.sessionOpen] := by
  unfold handshakeStep
  rcases hrt : sessRT (hsPre s) o with ⟨o1, r⟩
  rcases r with e | k
  · dsimp only
    rcases hcf : connection_failed (hsPre s) with ⟨s2, e2⟩
    have hse := (connection_failed_preserves (hsPre s)).2.2.2.2.2.2
    rw [hcf] at hse
    rcases e2 with _ | e2 <;> simpa [hsPre] using hse
  · simp [hsPre]

theorem openGo_sent (soft : Bool) (n : Nat) (s : St) (o : List Ev) :
    ∃ k, (openGo soft n s o).st.sent = s.sent ++ List.replicate k Req.sessionOpen := by
  induction n generalizing soft s o with
  | zero => exact ⟨0, by rw [openGo]; simp⟩
  | succ m ih =>
    cases soft with
    | true =>
      rw [openGo]
      rcases hh : handshakeStep s o with ⟨s1, o1, r⟩
      have hs1 : s1.sent = s.sent ++ [Req.sessionOpen] := by
        have := handshakeStep_sent s o
        rwa [hh] at this
      rcases r with _ | e | e <;> dsimp only
      · exact ⟨1, by rw [hs1]; rfl⟩
      · exact ⟨1, by rw [hs1]; rfl⟩
      · rcases m with _ | m' <;> dsimp only
        · exact ⟨1, by rw [hs1]; rfl⟩
        · obtain ⟨k, hk⟩ := ih false s1 o1
          refine ⟨k + 1, ?_⟩
          rw [hk, hs1, List.append_assoc, List.singleton_append, ← List.replicate_succ]
    | false =>
      rw [openGo]
      rcases hdh : drawHost { s with conn := some false } o with e | ⟨h1, o1⟩ <;> dsimp only
      · exact ⟨0, by simp⟩
      · rcases hdp : drawPort { s with conn := some false, current_host := some h1 } o1 with
          e | ⟨p1, o2⟩ <;> dsimp only
        · exact ⟨0, by simp⟩
        · rcases hce : connectEv o2 with ⟨o3, c⟩
          cases c <;> dsimp only
          · rcases hcf : connection_failed
                { s with conn := some false, current_host := some h1, current_port := some p1 }
                with ⟨s4, e2⟩
            have hs4 : s4.sent = s.sent := by
              have := (connection_failed_preserves
                { s with conn := some false, current_host := some h1,
                         current_port := some p1 }).2.2.2.2.2.2
              rw [hcf] at this
              exact this
            rcases e2 with _ | e2 <;> dsimp only
            · obtain ⟨k, hk⟩ := ih false s4 o3
              exact ⟨k, by rw [hk, hs4]⟩
            · exact ⟨0, by simp [hs4]⟩
          · rcases hh : handshakeStep
                { s with conn := some true, current_host := some h1, current_port := some p1 }
                o3 with ⟨s4, o4, r⟩
            have hs4 : s4.sent = s.sent ++ [Req.sessionOpen] := by
              have := handshakeStep_sent
                { s with conn := some true, current_host := some h1, current_port := some p1 } o3
              rw [hh] at this
              exact this
            rcases r with _ | e | e <;> dsimp only
            · exact ⟨1, by rw [hs4]; rfl⟩
            · exact ⟨1, by rw [hs4]; rfl⟩
            · rcases m with _ | m' <;> dsimp only
              · exact ⟨1, by rw [hs4]; rfl⟩
              · obtain ⟨k, hk⟩ := ih false s4 o4
                refine ⟨k + 1, ?_⟩
                rw [hk, hs4, List.append_assoc, List.singleton_append, ← List.replicate_succ]

theorem onlyNonTx_append (a b : List Req) :
    onlyNonTx (a ++ b) = (onlyNonTx a && onlyNonTx b) :=
  List.all_append

theorem onlyNonTx_replicate (k : Nat) :
    onlyNonTx (List.replicate k Req.sessionOpen) = true := by
  induction k with
  | zero => rfl
  | succ k2 ih => simp [onlyNonTx, List.replicate_succ] at ih ⊢

theorem execGo_sent_nontx (sc : String) (iso : Bool) (t : Bool) (n : Nat) (s : St)
    (o : List Ev) (ht : s.in_transaction = true ∨ t = false) :
    ∃ l, (execGo sc iso t n s o).st.sent = s.sent ++ l ∧ onlyNonTx l = true := by
  revert ht
  induction n generalizing t s o with
  | zero =>
    intro ht
    have ht2 : (if s.in_transaction then false else t) = false := by
      rcases ht with h | h
      · simp [h]
      · cases hst : s.in_transaction <;> simp [h]
    rw [execGo, ht2]
    rcases hrt : scriptRT (scrPre sc iso false s) o with ⟨o1, r⟩
    rcases r with e | rs <;> dsimp only
    · rcases hcf : connection_failed (scrPre sc iso false s) with ⟨s2, e2⟩
      have hs2 : s2.sent = s.sent ++ [Req.scriptReq sc iso false] := by
        have := (connection_failed_preserves (scrPre sc iso false s)).2.2.2.2.2.2
        rw [hcf] at this
        exact this
      rcases e2 with _ | e2 <;> dsimp only
      · exact ⟨[Req.scriptReq sc iso false], hs2, rfl⟩
      · exact ⟨[Req.scriptReq sc iso false], hs2, rfl⟩
    · exact ⟨[Req.scriptReq sc iso false], rfl, rfl⟩
  | succ m ih =>
    intro ht
    have ht2 : (if s.in_transaction then false else t) = false := by
      rcases ht with h | h
      · simp [h]
      · cases hst : s.in_transaction <;> simp [h]
    rw [execGo, ht2]
    rcases hrt : scriptRT (scrPre sc iso false s) o with ⟨o1, r⟩
    rcases r with e | rs <;> dsimp only
    · rcases hcf : connection_failed (scrPre sc iso false s) with ⟨s2, e2⟩
      have hs2 : s2.sent = s.sent ++ [Req.scriptReq sc iso false] := by
        have := (connection_failed_preserves (scrPre sc iso false s)).2.2.2.2.2.2
        rw [hcf] at this
        exact this
      rcases e2 with _ | e2 <;> dsimp only
      · rcases hcl : close false s2 o1 with ⟨s3, o2, rc⟩
        have hs3 : s3.sent = s2.sent ++ [Req.sessionKill] := by
          have := close_sent false s2 o1
          rwa [hcl] at this
        rcases rc with ec | v <;> dsimp only
        · exact ⟨[Req.scriptReq sc iso false, Req.sessionKill],
            by rw [hs3, hs2]; simp, rfl⟩
        · rcases hoc : openConn false s3 o2 with ⟨s4, o3, ro⟩
          obtain ⟨k, hk⟩ := openGo_sent false CONNECTION_ATTEMPTS s3 o2
          rw [show openConn false s3 o2 = openGo false CONNECTION_ATTEMPTS s3 o2 from rfl]
            at hoc
          rw [hoc] at hk
          rcases ro with eo | v2 <;> dsimp only
          · refine ⟨[Req.scriptReq sc iso false] ++ [Req.sessionKill] ++
              List.replicate k Req.sessionOpen, by rw [hk, hs3, hs2]; simp, ?_⟩
            simp [onlyNonTx_append, onlyNonTx_replicate, onlyNonTx]
          · obtain ⟨l4, hl4, hnt4⟩ := ih false s4 o3 (Or.inr rfl)
            refine ⟨[Req.scriptReq sc iso false] ++ [Req.sessionKill] ++
              List.replicate k Req.sessionOpen ++ l4,
              by rw [hl4, hk, hs3, hs2]; simp, ?_⟩
            rw [onlyNonTx_append, onlyNonTx_append, onlyNonTx_append, hnt4,
              onlyNonTx_replicate]
            simp [onlyNonTx]
      · exact ⟨[Req.scriptReq sc iso false], hs2, rfl⟩
    · exact ⟨[Req.scriptReq sc iso false], rfl, rfl⟩

/-- C5: every script-execution request that `execute` puts on the wire
during a call that starts with `in_transaction == true` carries
`transaction=false`, regardless of the `transaction` argument passed by the
caller (the wire log fragment appended by the call contains no script
request with the transaction flag set). -/
theorem c5_forced_nontransactional (sc : String) (iso t : Bool) (s : St) (o : List Ev)
    (h : s.in_transaction = true) :
    onlyNonTx ((execute sc iso t s o).st.sent.drop s.sent.length) = true := by
  obtain ⟨l, hl, hnt⟩ := execGo_sent_nontx sc iso t (CONNECTION_ATTEMPTS - 1) s o (Or.inl h)
  unfold execute
  rw [hl, List.drop_left]
  exact hnt

/-- C5 witness: `execute(transaction=true)` on a concrete in-transaction
state sends only `transaction=false` script requests. -/
theorem c5_forced_nontransactional_witness :
    onlyNonTx ((execute "g.V().count()" true true wStTx [Ev.scriptOk [1]]).st.sent.drop
      wStTx.sent.length) = true :=
  c5_forced_nontransactional "g.V().count()" true true wStTx [Ev.scriptOk [1]] rfl

end Rexpro
